import Mathlib

/-!
Verification of the Miniscript satisfier / interpreter core of
rust-miniscript-doge against its natural-language specification.

Bytes are modelled as `Nat`, byte strings as `List Nat`, witness stacks as
`List (List Nat)`.  Machine integers (`u32`, `usize`) are modelled as `Nat`
(no arithmetic in the translated code can overflow on its reachable inputs);
the transaction version (`i32`) is modelled as `Int`.
-/

namespace MiniscriptDoge

/-- Modelled from the spec: `util::witness_size` is not under `src/`; the spec
defines it as the sum of the length of each element plus its varint header.  The
varint header is the standard Bitcoin CompactSize length. -/
def varint_len (n : Nat) : Nat :=
  if n < 0xfd then 1 else if n < 0x10000 then 3 else if n < 0x100000000 then 5 else 9

/-- Modelled from the spec: serialized size of a witness stack, the sum of each
length of each element plus its varint header. -/
def witness_size (v : List (List Nat)) : Nat :=
  v.foldl (fun acc e => acc + varint_len e.length + e.length) 0

/-- Witness of a Miniscript fragment (`enum Witness`, satisfy.rs:367). -/
inductive Witness where
  /-- Witness available, with its value. -/
  | Stack (s : List (List Nat))
  /-- Third party can possibly satisfy the fragment but we cannot. -/
  | Unavailable
  /-- No third party can produce a satisfaction without the private key. -/
  | Impossible
deriving DecidableEq, Repr

/-- Translation of `impl Ord for Witness` (satisfy.rs:384-400). -/
def Witness.cmp : Witness → Witness → Ordering
  | .Stack v1, .Stack v2 => compare (witness_size v1) (witness_size v2)
  | .Stack _, _ => .lt
  | _, .Stack _ => .gt
  | .Impossible, .Unavailable => .lt
  | .Unavailable, .Impossible => .gt
  | .Impossible, .Impossible => .eq
  | .Unavailable, .Unavailable => .eq

/-- Rust `std::cmp::min` specialised to `Witness`: returns the first argument
unless the comparison determines the second to be strictly smaller. -/
def Witness.minW (a b : Witness) : Witness :=
  match Witness.cmp a b with
  | .gt => b
  | _ => a

/-- Translation of `Witness::combine` (satisfy.rs:497-506). -/
def Witness.combine : Witness → Witness → Witness
  | .Impossible, _ => .Impossible
  | _, .Impossible => .Impossible
  | .Unavailable, _ => .Unavailable
  | _, .Unavailable => .Unavailable
  | .Stack a, .Stack b => .Stack (a ++ b)

/-- Translation of `Witness::empty` (satisfy.rs:482). -/
def Witness.empty : Witness := .Stack []

/-- Translation of `Witness::push_1` (satisfy.rs:487). -/
def Witness.push_1 : Witness := .Stack [[1]]

/-- Translation of `Witness::push_0` (satisfy.rs:492). -/
def Witness.push_0 : Witness := .Stack [[]]

/-- A (dis)satisfaction of a Miniscript fragment (`struct Satisfaction`,
satisfy.rs:511). -/
structure Satisfaction where
  /-- The actual witness stack. -/
  stack : Witness
  /-- Whether or not this (dis)satisfaction has a signature somewhere in it. -/
  has_sig : Bool
deriving DecidableEq, Repr

/-- Translation of `Satisfaction::minimum` (satisfy.rs:681-716), the
non-malleable choice function. -/
def Satisfaction.minimum (sat1 sat2 : Satisfaction) : Satisfaction :=
  match sat1.stack, sat2.stack with
  | .Impossible, _ => sat2
  | _, .Impossible => sat1
  | _, _ =>
    match sat1.has_sig, sat2.has_sig with
    | false, false => { stack := .Unavailable, has_sig := false }
    | false, true => { stack := sat1.stack, has_sig := false }
    | true, false => { stack := sat2.stack, has_sig := false }
    | true, true => { stack := Witness.minW sat1.stack sat2.stack, has_sig := true }

/-- Lookup table for signatures and timelock predicates (`trait Satisfier`,
satisfy.rs:56-104), restricted to the methods the claims need.  A
`BitcoinSig` is modelled as the pair of the DER-serialized signature bytes
and the sighash-flag byte. -/
structure SatisfierM (Pk : Type) where
  /-- Given a public key, look up a signature with that key. -/
  lookup_sig : Pk → Option (List Nat × Nat)
  /-- Assert whether a relative locktime is satisfied. -/
  check_older : Nat → Bool
  /-- Assert whether an absolute locktime is satisfied. -/
  check_after : Nat → Bool

/-- Translation of `Witness::signature` (satisfy.rs:404-414):
`sig.serialize_der()` is the first component of the looked-up pair, and the
sighash-flag byte is appended to it. -/
def Witness.signature {Pk : Type} (sat : SatisfierM Pk) (pk : Pk) : Witness :=
  match sat.lookup_sig pk with
  | some (sig, hashtype) => .Stack [sig ++ [hashtype]]
  | none => .Impossible

/-! Timelock constants and predicates.  The numeric constants live in
`miniscript::limits`, which is not under `src/`. -/

/-- Modelled from the spec: `SEQUENCE_LOCKTIME_DISABLE_FLAG` from
`miniscript::limits` (the BIP-112 disable bit, 1 <<< 31). -/
def SEQUENCE_LOCKTIME_DISABLE_FLAG : Nat := 0x80000000

/-- Modelled from the spec: `SEQUENCE_LOCKTIME_TYPE_FLAG` from
`miniscript::limits` (the BIP-112 time/height type bit, 1 <<< 22). -/
def SEQUENCE_LOCKTIME_TYPE_FLAG : Nat := 0x400000

/-- Modelled from the spec: `HEIGHT_TIME_THRESHOLD` from `miniscript::limits`
(the BIP-65 threshold separating block heights from unix timestamps). -/
def HEIGHT_TIME_THRESHOLD : Nat := 500000000

/-- Translation of `impl Satisfier for After` (satisfy.rs:138-147); `lock` is
the wrapped `After` value `self.0`. -/
def after_check (lock : Nat) (n : Nat) : Bool :=
  if n < HEIGHT_TIME_THRESHOLD ∧ HEIGHT_TIME_THRESHOLD ≤ lock then false
  else decide (n ≤ lock)

/-- Translation of `impl Satisfier for Older` (satisfy.rs:113-132); `seqv` is
the wrapped `Older` value `self.0`. -/
def older_check (seqv : Nat) (n : Nat) : Bool :=
  if seqv &&& SEQUENCE_LOCKTIME_DISABLE_FLAG ≠ 0 then true
  else
    let mask := 0x0000ffff ||| SEQUENCE_LOCKTIME_TYPE_FLAG
    let masked_n := n &&& mask
    let masked_seq := seqv &&& mask
    if masked_n < SEQUENCE_LOCKTIME_TYPE_FLAG ∧ SEQUENCE_LOCKTIME_TYPE_FLAG ≤ masked_seq then
      false
    else decide (masked_n ≤ masked_seq)

/-- Translation of `PsbtInputSatisfier::check_after` (psbt/mod.rs:255-266).
`locktime` is `unsigned_tx.lock_time` and `seq` is the sequence of the input. -/
def psbt_check_after (locktime seq : Nat) (n : Nat) : Bool :=
  if seq = 0xffffffff then false else after_check locktime n

/-- Translation of `PsbtInputSatisfier::check_older` (psbt/mod.rs:268-282).
`version` is `unsigned_tx.version` (an `i32`) and `seq` is the
sequence. -/
def psbt_check_older (version : Int) (seq : Nat) (n : Nat) : Bool :=
  if n &&& SEQUENCE_LOCKTIME_DISABLE_FLAG ≠ 0 then true
  else if version < 2 ∨ seq &&& SEQUENCE_LOCKTIME_DISABLE_FLAG ≠ 0 then false
  else older_check seq n

/-! Satisfier arms of `Satisfaction::satisfy_helper` and
`Satisfaction::dissatisfy_helper` for the leaf fragments the claims are
about.  These fragments do not recurse into children, so each arm is a
standalone function of the data the corresponding `Terminal` variant holds. -/

/-- Translation of the `Terminal::After(t)` arm of
`Satisfaction::satisfy_helper` (satisfy.rs:759-773). -/
def satisfy_after {Pk : Type} (stfr : SatisfierM Pk) (root_has_sig : Bool) (t : Nat) :
    Satisfaction :=
  { stack :=
      if stfr.check_after t then Witness.empty
      else if root_has_sig then Witness.Impossible
      else Witness.Unavailable,
    has_sig := false }

/-- Translation of the `Terminal::Older(t)` arm of
`Satisfaction::satisfy_helper` (satisfy.rs:774-789). -/
def satisfy_older {Pk : Type} (stfr : SatisfierM Pk) (root_has_sig : Bool) (t : Nat) :
    Satisfaction :=
  { stack :=
      if stfr.check_older t then Witness.empty
      else if root_has_sig then Witness.Impossible
      else Witness.Unavailable,
    has_sig := false }

/-- Translation of the signature-collection loop of the `Terminal::Multi` arm
of `Satisfaction::satisfy_helper` (satisfy.rs:909-923).  The result pairs the
collected signature stacks (in key order) with `sig_count`; `none` models the
`unreachable!` panic taken when `Witness::signature` returns
`Witness::Unavailable`. -/
def collect_sigs {Pk : Type} (stfr : SatisfierM Pk) : List Pk →
    Option (List (List (List Nat)) × Nat)
  | [] => some ([], 0)
  | pk :: keys =>
    match Witness.signature stfr pk with
    | .Stack sig => (collect_sigs stfr keys).map (fun sc => (sig :: sc.1, sc.2 + 1))
    | .Impossible => collect_sigs stfr keys
    | .Unavailable => none

/-- Translation of the `max_by_key(|&(_, ref v)| v.len())` selection inside the
`Terminal::Multi` arm (satisfy.rs:933-938).  The Rust `max_by_key` returns the
last maximal element, so a later index wins ties. -/
def max_idx_by_len (sigs : List (List (List Nat))) : Nat :=
  (sigs.foldl
      (fun st v =>
        match st with
        | (i, none) => (i + 1, some (i, v.length))
        | (i, some (bi, bl)) =>
          (i + 1, if bl ≤ v.length then some (i, v.length) else some (bi, bl)))
      (0, none)).2.elim 0 Prod.fst

/-- Translation of the `for _ in 0..sig_count - k` zeroing loop of the
`Terminal::Multi` arm (satisfy.rs:932-940): repeatedly replace the (last)
longest signature stack by the empty stack. -/
def zero_out (sigs : List (List (List Nat))) : Nat → List (List (List Nat))
  | 0 => sigs
  | n + 1 => zero_out (sigs.set (max_idx_by_len sigs) []) n

/-- Translation of the `Terminal::Multi(k, keys)` arm of
`Satisfaction::satisfy_helper` (satisfy.rs:908-949); `none` models the
`unreachable!` panic. -/
def satisfy_multi {Pk : Type} (stfr : SatisfierM Pk) (k : Nat) (keys : List Pk) :
    Option Satisfaction :=
  match collect_sigs stfr keys with
  | none => none
  | some (sigs, sig_count) =>
    if sig_count < k then some { stack := Witness.Impossible, has_sig := false }
    else
      some
        { stack :=
            (zero_out sigs (sig_count - k)).foldl
              (fun acc sig => Witness.combine acc (Witness.Stack sig)) Witness.push_0,
          has_sig := true }

/-- Translation of the `Terminal::Multi(k, _)` arm of
`Satisfaction::dissatisfy_helper` (satisfy.rs:1062-1065). -/
def dissatisfy_multi (k : Nat) : Satisfaction :=
  { stack := Witness.Stack (List.replicate (k + 1) []), has_sig := false }

/-! Interpreter model.  The witness stack is modelled as a `List Element`
whose head is the top of the stack (the Rust `Stack` is a `Vec` pushed and
popped at its end).  Constraints yielded by multisig evaluation are modelled
by the matched public key. -/

/-- Element of the interpreter witness stack (`stack::Element`; the
`stack` module is declared in interpreter/mod.rs:33 but its source is not
under `src/`, so the shape is taken from the data model of the spec). -/
inductive Element where
  /-- Literal data push. -/
  | Push (v : List Nat)
  /-- The canonical one-byte true. -/
  | Satisfied
  /-- The canonical empty-push false. -/
  | Dissatisfied
deriving DecidableEq, Repr

/-- Interpreter errors relevant to the claims (`interpreter::Error`,
interpreter/error.rs). -/
inductive IntError where
  | UnexpectedStackEnd
  | UnexpectedStackBoolean
  | InsufficientSignaturesMultiSig
  | MissingExtraZeroMultiSig
  | MultiSigEvaluationError
deriving DecidableEq, Repr

/-- Modelled from the spec: `Stack::evaluate_multi` (the `stack` module is not
under `src/`).  Pop the top element; it must be a push (a boolean is
`UnexpectedStackBoolean` per interpreter/error.rs:77-78, an empty stack is
`UnexpectedStackEnd`); if the signature verifies against `pk` the push is
consumed and a `PublicKey` constraint is yielded, otherwise the push is
returned to the stack and `none` signals a no-match.  `verify pk sigser`
abstracts `verify_sersig` (DER parse, standard sighash flag and the host
predicate folded into one boolean). -/
def evaluate_multi {Pk : Type} (verify : Pk → List Nat → Bool) (pk : Pk)
    (stack : List Element) : List Element × Option (Except IntError Pk) :=
  match stack with
  | [] => ([], some (.error .UnexpectedStackEnd))
  | .Push sigser :: rest =>
    if verify pk sigser then (rest, some (.ok pk))
    else (.Push sigser :: rest, none)
  | e :: rest => (e :: rest, some (.error .UnexpectedStackBoolean))

/-- Translation of the second `Terminal::Multi` arm of `Iter::iter_next`
(interpreter/mod.rs:684-715), iterated to completion.  The code indexes the
next key as `subs[subs.len() - n_evaluated - 1]`; here `remaining` stands for
`subs.len() - n_evaluated`, so keys are exhausted exactly when
`remaining = 0` and the next key is `subs[remaining - 1]`.  The result is the
final stack together with the yielded constraints. -/
def multi_loop {Pk : Type} [Inhabited Pk] (verify : Pk → List Nat → Bool) (k : Nat)
    (subs : List Pk) : Nat → Nat → List Element → List Pk →
    Except IntError (List Element × List Pk)
  | remaining, n_sat, stack, acc =>
    if n_sat = k then
      match stack with
      | .Dissatisfied :: rest => .ok (.Satisfied :: rest, acc)
      | _ => .error .MissingExtraZeroMultiSig
    else
      match remaining with
      | 0 => .error .MultiSigEvaluationError
      | r + 1 =>
        match evaluate_multi verify (subs.getD r default) stack with
        | (stack2, some (.ok c)) => multi_loop verify k subs r (n_sat + 1) stack2 (acc ++ [c])
        | (stack2, none) => multi_loop verify k subs r n_sat stack2 acc
        | (_, some (.error e)) => .error e

/-- Translation of the first (entry, `n_evaluated == 0`) `Terminal::Multi` arm
of `Iter::iter_next` (interpreter/mod.rs:637-683), continued to completion by
`multi_loop`. -/
def multi_eval {Pk : Type} [Inhabited Pk] (verify : Pk → List Nat → Bool) (k : Nat)
    (subs : List Pk) (stack : List Element) : Except IntError (List Element × List Pk) :=
  if stack.length < k + 1 then .error .InsufficientSignaturesMultiSig
  else
    match stack with
    | [] => .error .UnexpectedStackEnd
    | .Dissatisfied :: _ =>
      let sigs := stack.take (k + 1)
      let nonsat := (sigs.filter (fun e => e = Element.Dissatisfied)).length
      if nonsat = k + 1 then .ok (.Dissatisfied :: stack.drop (k + 1), [])
      else .error .MissingExtraZeroMultiSig
    | _ =>
      match evaluate_multi verify (subs.getD (subs.length - 1) default) stack with
      | (stack2, some (.ok c)) => multi_loop verify k subs (subs.length - 1) 1 stack2 [c]
      | (stack2, none) => multi_loop verify k subs (subs.length - 1) 0 stack2 []
      | (_, some (.error e)) => .error e

/-- State of the constraint iterator (`struct Iter`, interpreter/mod.rs:314-322),
abstracted over everything except the error fuse: `inner` stands for the
fields `iter_next` reads and writes (`state`, `stack`, `public_key`, ...),
which never touch `has_errored`. -/
structure IterM (σ Cst : Type) where
  /-- The state `iter_next` operates on. -/
  inner : σ
  /-- Set once the first error has been yielded. -/
  has_errored : Bool

/-- Translation of `Iterator::next for Iter` (interpreter/mod.rs:332-343);
`step` abstracts `iter_next`, returning the updated inner state and the
yielded item. -/
def IterM.next {σ Cst : Type} (step : σ → σ × Option (Except IntError Cst))
    (it : IterM σ Cst) : IterM σ Cst × Option (Except IntError Cst) :=
  if it.has_errored then (it, none)
  else
    let res := step it.inner
    let errored := match res.2 with
      | some (.error _) => true
      | _ => false
    ({ inner := res.1, has_errored := errored }, res.2)

/-- Iterate `IterM.next` `n` times, keeping only the final state. -/
def IterM.run {σ Cst : Type} (step : σ → σ × Option (Except IntError Cst)) :
    Nat → IterM σ Cst → IterM σ Cst
  | 0, it => it
  | n + 1, it => IterM.run step n (IterM.next step it).1

/-! Lexer (miniscript/lex.rs).  The instruction decoder
(`script::instructions_minimal`) is an external collaborator, so `lex` takes
the already-decoded instruction sequence; its own parse errors are out of
scope of the claims. -/

/-- Token of a tokenized script (`enum Token`, lex.rs:30-60).  Hashes and
public keys are kept as raw byte strings. -/
inductive Token where
  | BoolAnd
  | BoolOr
  | Add
  | Equal
  | CheckSig
  | CheckMultiSig
  | CheckSequenceVerify
  | CheckLockTimeVerify
  | FromAltStack
  | ToAltStack
  | Drop
  | Dup
  | If
  | IfDup
  | NotIf
  | Else
  | EndIf
  | ZeroNotEqual
  | Size
  | Swap
  | Verify
  | Ripemd160
  | Hash160
  | Sha256
  | Hash256
  | Num (n : Nat)
  | Hash20 (h : List Nat)
  | Hash32 (h : List Nat)
  | Pubkey (pk : List Nat)
deriving DecidableEq, Repr

/-- Opcodes matched by `lex` (lex.rs:126-302).  `PUSHNUM i` stands for
`OP_PUSHNUM_(i+1)`; `OTHER` covers every opcode hitting the final
`InvalidOpcode` arm. -/
inductive Opcode where
  | BOOLAND
  | BOOLOR
  | EQUAL
  | EQUALVERIFY
  | CHECKSIG
  | CHECKSIGVERIFY
  | CHECKMULTISIG
  | CHECKMULTISIGVERIFY
  | CSV
  | CLTV
  | FROMALTSTACK
  | TOALTSTACK
  | DROP
  | DUP
  | ADD
  | IF
  | IFDUP
  | NOTIF
  | ELSE
  | ENDIF
  | ZERONOTEQUAL
  | SIZE
  | SWAP
  | VERIFY
  | RIPEMD160
  | HASH160
  | SHA256
  | HASH256
  | PUSHBYTES_0
  | PUSHNUM (i : Fin 16)
  | OTHER (code : Nat)
deriving DecidableEq, Repr

/-- A decoded script instruction (`script::Instruction`). -/
inductive Instruction where
  | op (o : Opcode)
  | pushBytes (b : List Nat)
deriving DecidableEq, Repr

/-- Lexer errors (`miniscript::Error` variants reachable from lex.rs).
`Script` wraps external script-integer parse failures. -/
inductive LexError where
  | NonMinimalVerify (t : Token)
  | BadPubkey
  | InvalidPush (b : List Nat)
  | Script
  | InvalidOpcode (code : Nat)
deriving DecidableEq, Repr

/-- External collaborators of the lexer: public-key parsing and minimal
script-integer encoding (`PublicKey::from_slice`, `script::read_scriptint`,
`script::Builder::push_int`). -/
structure ScriptExt where
  /-- Whether the byte string parses as a public key. -/
  parse_pubkey_ok : List Nat → Bool
  /-- Decode a script integer; `none` models the error case. -/
  read_scriptint : List Nat → Option Int
  /-- The minimal push encoding of an integer, without its opcode byte
  (`Builder::new().push_int(v).into_script()[1..]`). -/
  push_int_bytes : Int → List Nat

/-- Translation of the body of the `for ins in script.instructions_minimal()`
loop of `lex` (lex.rs:125-303): process one instruction against the tokens
emitted so far. -/
def lex_step (ext : ScriptExt) (ret : List Token) : Instruction → Except LexError (List Token)
  | .op .BOOLAND => .ok (ret ++ [.BoolAnd])
  | .op .BOOLOR => .ok (ret ++ [.BoolOr])
  | .op .EQUAL => .ok (ret ++ [.Equal])
  | .op .EQUALVERIFY => .ok (ret ++ [.Equal, .Verify])
  | .op .CHECKSIG => .ok (ret ++ [.CheckSig])
  | .op .CHECKSIGVERIFY => .ok (ret ++ [.CheckSig, .Verify])
  | .op .CHECKMULTISIG => .ok (ret ++ [.CheckMultiSig])
  | .op .CHECKMULTISIGVERIFY => .ok (ret ++ [.CheckMultiSig, .Verify])
  | .op .CSV => .ok (ret ++ [.CheckSequenceVerify])
  | .op .CLTV => .ok (ret ++ [.CheckLockTimeVerify])
  | .op .FROMALTSTACK => .ok (ret ++ [.FromAltStack])
  | .op .TOALTSTACK => .ok (ret ++ [.ToAltStack])
  | .op .DROP => .ok (ret ++ [.Drop])
  | .op .DUP => .ok (ret ++ [.Dup])
  | .op .ADD => .ok (ret ++ [.Add])
  | .op .IF => .ok (ret ++ [.If])
  | .op .IFDUP => .ok (ret ++ [.IfDup])
  | .op .NOTIF => .ok (ret ++ [.NotIf])
  | .op .ELSE => .ok (ret ++ [.Else])
  | .op .ENDIF => .ok (ret ++ [.EndIf])
  | .op .ZERONOTEQUAL => .ok (ret ++ [.ZeroNotEqual])
  | .op .SIZE => .ok (ret ++ [.Size])
  | .op .SWAP => .ok (ret ++ [.Swap])
  | .op .VERIFY =>
    match ret.getLast? with
    | some Token.Equal => .error (.NonMinimalVerify Token.Equal)
    | some Token.CheckSig => .error (.NonMinimalVerify Token.CheckSig)
    | some Token.CheckMultiSig => .error (.NonMinimalVerify Token.CheckMultiSig)
    | _ => .ok (ret ++ [.Verify])
  | .op .RIPEMD160 => .ok (ret ++ [.Ripemd160])
  | .op .HASH160 => .ok (ret ++ [.Hash160])
  | .op .SHA256 => .ok (ret ++ [.Sha256])
  | .op .HASH256 => .ok (ret ++ [.Hash256])
  | .pushBytes b =>
    if b.length = 20 then .ok (ret ++ [.Hash20 b])
    else if b.length = 32 then .ok (ret ++ [.Hash32 b])
    else if b.length = 33 ∨ b.length = 65 then
      if ext.parse_pubkey_ok b then .ok (ret ++ [.Pubkey b]) else .error .BadPubkey
    else
      match ext.read_scriptint b with
      | some v =>
        if 0 ≤ v then
          if ext.push_int_bytes v ≠ b then .error (.InvalidPush b)
          else .ok (ret ++ [.Num v.toNat])
        else .error (.InvalidPush b)
      | none => .error .Script
  | .op .PUSHBYTES_0 => .ok (ret ++ [.Num 0])
  | .op (.PUSHNUM i) => .ok (ret ++ [.Num (i.val + 1)])
  | .op (.OTHER c) => .error (.InvalidOpcode c)

/-- The instruction loop of `lex` (lex.rs:124-304) with its accumulated token
vector. -/
def lex_go (ext : ScriptExt) (ret : List Token) : List Instruction → Except LexError (List Token)
  | [] => .ok ret
  | ins :: rest =>
    match lex_step ext ret ins with
    | .ok ret2 => lex_go ext ret2 rest
    | .error e => .error e

/-- Translation of `lex` (lex.rs:121-306): tokenize a decoded script. -/
def lex (ext : ScriptExt) (script : List Instruction) : Except LexError (List Token) :=
  lex_go ext [] script

/-! Concrete fixtures used by witnesses and counterexamples. -/

/-- Lookup table with a 3-byte DER signature for key 0 and a 1-byte one for
key 1 (sighash flag byte 1 in both). -/
def ex_multi : SatisfierM Nat :=
  { lookup_sig := fun pk => if pk = 0 then some ([9, 9, 9], 1) else some ([8], 1),
    check_older := fun _ => false,
    check_after := fun _ => false }

/-- Lookup table whose timelock checks hold below 100 and with a signature
only for key 0. -/
def ex_timelock : SatisfierM Nat :=
  { lookup_sig := fun pk => if pk = 0 then some ([7], 1) else none,
    check_older := fun n => decide (n ≤ 100),
    check_after := fun n => decide (n ≤ 100) }

/-- Inner step that always yields an error, for exercising the iterator
fuse. -/
def step0 (s : Nat) : Nat × Option (Except IntError Nat) :=
  (s + 1, some (.error .UnexpectedStackEnd))

/-- Signature-check predicate matching a push `[pk]` against the key `pk`. -/
def vf0 (pk : Nat) (sigser : List Nat) : Bool :=
  sigser = [pk]

/-- Trivial external collaborators of the lexer. -/
def ext0 : ScriptExt :=
  { parse_pubkey_ok := fun _ => false,
    read_scriptint := fun _ => none,
    push_int_bytes := fun _ => [] }

/-! Helper lemmas about the Witness comparison. -/

theorem Witness.cmp_refl (a : Witness) : Witness.cmp a a = .eq := by
  cases a <;> simp [Witness.cmp, Nat.compare_eq_eq]

theorem Witness.cmp_lt_iff_gt (a b : Witness) :
    Witness.cmp a b = .lt ↔ Witness.cmp b a = .gt := by
  cases a <;> cases b <;>
    simp [Witness.cmp, Nat.compare_eq_lt, Nat.compare_eq_gt]

theorem Witness.cmp_le_trans {a b c : Witness} (h1 : Witness.cmp a b ≠ .gt)
    (h2 : Witness.cmp b c ≠ .gt) : Witness.cmp a c ≠ .gt := by
  cases a <;> cases b <;> cases c <;>
    simp_all [Witness.cmp, Nat.compare_eq_gt] <;> omega

theorem Witness.minW_choice (a b : Witness) :
    Witness.minW a b = a ∨ Witness.minW a b = b := by
  unfold Witness.minW
  cases Witness.cmp a b <;> simp

theorem Witness.minW_le_left (a b : Witness) :
    Witness.cmp (Witness.minW a b) a ≠ .gt := by
  unfold Witness.minW
  cases h : Witness.cmp a b with
  | lt => simp [Witness.cmp_refl]
  | eq => simp [Witness.cmp_refl]
  | gt =>
    have hba : Witness.cmp b a = .lt := (Witness.cmp_lt_iff_gt b a).2 h
    simp [hba]

theorem Witness.minW_le_right (a b : Witness) :
    Witness.cmp (Witness.minW a b) b ≠ .gt := by
  unfold Witness.minW
  cases h : Witness.cmp a b with
  | lt => simp [h]
  | eq => simp [h]
  | gt => simp [Witness.cmp_refl]

/-- C6 counterexample: two structurally distinct `Stack` values of equal
serialized size compare as `eq`, so `Witness.cmp` is not antisymmetric and
hence not a total order on `Witness` values. -/
theorem witness_cmp_not_total_order :
    Witness.cmp (Witness.Stack [[0]]) (Witness.Stack [[1]]) = .eq
    ∧ Witness.Stack [[0]] ≠ Witness.Stack [[1]] := by
  constructor
  · decide
  · decide

/-- C6 (amended): the comparison on Witness is a total preorder — reflexive,
transitive and with `cmp a b` the exact opposite of `cmp b a` — in which
every Stack value is strictly less than Impossible and than Unavailable,
Impossible is strictly less than Unavailable, and two Stack values compare
by serialized witness size. -/
theorem witness_cmp_total_preorder :
    (∀ a : Witness, Witness.cmp a a = .eq)
    ∧ (∀ a b : Witness, Witness.cmp a b = .lt ↔ Witness.cmp b a = .gt)
    ∧ (∀ a b c : Witness,
        Witness.cmp a b ≠ .gt → Witness.cmp b c ≠ .gt → Witness.cmp a c ≠ .gt)
    ∧ (∀ v, Witness.cmp (Witness.Stack v) .Impossible = .lt
        ∧ Witness.cmp (Witness.Stack v) .Unavailable = .lt)
    ∧ Witness.cmp .Impossible .Unavailable = .lt
    ∧ (∀ v1 v2, Witness.cmp (Witness.Stack v1) (Witness.Stack v2)
        = compare (witness_size v1) (witness_size v2)) := by
  refine ⟨Witness.cmp_refl, Witness.cmp_lt_iff_gt,
    fun a b c => Witness.cmp_le_trans, fun v => ⟨rfl, rfl⟩, rfl, fun v1 v2 => rfl⟩

/-- C6 witness: transitivity of the comparison applied at concrete values. -/
theorem witness_cmp_total_preorder_witness :
    Witness.cmp (Witness.Stack [[0]]) (Witness.Stack [[1], [2]]) ≠ .gt
    ∧ Witness.cmp (Witness.Stack [[1], [2]]) Witness.Impossible ≠ .gt
    ∧ Witness.cmp (Witness.Stack [[0]]) Witness.Impossible ≠ .gt :=
  ⟨by decide, by decide,
    witness_cmp_total_preorder.2.2.1 (Witness.Stack [[0]]) (Witness.Stack [[1], [2]])
      Witness.Impossible (by decide) (by decide)⟩

/-- C10: `Witness.combine` is total (it is a Lean function), associative,
has the empty stack as a two-sided identity, Impossible is absorbing,
Unavailable is absorbing among non-Impossible witnesses, and two stacks
concatenate left-then-right. -/
theorem combine_monoid_spec :
    (∀ a b c : Witness, Witness.combine (Witness.combine a b) c
      = Witness.combine a (Witness.combine b c))
    ∧ (∀ a : Witness,
        Witness.combine Witness.empty a = a ∧ Witness.combine a Witness.empty = a)
    ∧ (∀ a : Witness, Witness.combine a .Impossible = .Impossible
        ∧ Witness.combine .Impossible a = .Impossible)
    ∧ (∀ a b : Witness, a ≠ .Impossible → b ≠ .Impossible →
        (a = .Unavailable ∨ b = .Unavailable) → Witness.combine a b = .Unavailable)
    ∧ (∀ x y, Witness.combine (.Stack x) (.Stack y) = .Stack (x ++ y)) := by
  refine ⟨?_, ?_, ?_, ?_, fun x y => rfl⟩
  · intro a b c
    cases a <;> cases b <;> cases c <;> simp [Witness.combine]
  · intro a
    cases a <;> simp [Witness.combine, Witness.empty]
  · intro a
    cases a <;> simp [Witness.combine]
  · intro a b ha hb hor
    cases a <;> cases b <;> simp_all [Witness.combine]

/-- C10 witness: Unavailable absorption applied at concrete non-Impossible
witnesses. -/
theorem combine_monoid_spec_witness :
    Witness.Stack [[3]] ≠ Witness.Impossible
    ∧ Witness.Unavailable ≠ Witness.Impossible
    ∧ Witness.combine (Witness.Stack [[3]]) Witness.Unavailable = Witness.Unavailable :=
  ⟨by decide, by decide,
    combine_monoid_spec.2.2.2.1 _ _ (by decide) (by decide) (Or.inr rfl)⟩

theorem minimum_reduce_ff {s1 s2 : Witness} (h1 : s1 ≠ .Impossible) (h2 : s2 ≠ .Impossible) :
    Satisfaction.minimum ⟨s1, false⟩ ⟨s2, false⟩ = ⟨.Unavailable, false⟩ := by
  cases s1 <;> cases s2 <;> first | rfl | exact absurd rfl h1 | exact absurd rfl h2

theorem minimum_reduce_ft {s1 s2 : Witness} (h1 : s1 ≠ .Impossible) (h2 : s2 ≠ .Impossible) :
    Satisfaction.minimum ⟨s1, false⟩ ⟨s2, true⟩ = ⟨s1, false⟩ := by
  cases s1 <;> cases s2 <;> first | rfl | exact absurd rfl h1 | exact absurd rfl h2

theorem minimum_reduce_tf {s1 s2 : Witness} (h1 : s1 ≠ .Impossible) (h2 : s2 ≠ .Impossible) :
    Satisfaction.minimum ⟨s1, true⟩ ⟨s2, false⟩ = ⟨s2, false⟩ := by
  cases s1 <;> cases s2 <;> first | rfl | exact absurd rfl h1 | exact absurd rfl h2

theorem minimum_reduce_tt {s1 s2 : Witness} (h1 : s1 ≠ .Impossible) (h2 : s2 ≠ .Impossible) :
    Satisfaction.minimum ⟨s1, true⟩ ⟨s2, true⟩ = ⟨Witness.minW s1 s2, true⟩ := by
  cases s1 <;> cases s2 <;> first | rfl | exact absurd rfl h1 | exact absurd rfl h2

/-- C1 counterexample: when both candidates are Impossible (so not exactly
one of them), neither carries a signature, yet the resulting stack is
Impossible, not Unavailable as the `otherwise` chain of the claim demands. -/
theorem minimum_both_impossible :
    Satisfaction.minimum ⟨.Impossible, false⟩ ⟨.Impossible, false⟩
      = ⟨Witness.Impossible, false⟩
    ∧ Witness.Impossible ≠ Witness.Unavailable := by
  constructor
  · rfl
  · decide

/-- C1 (amended): if the stack of the first candidate is Impossible the second
candidate is returned (in particular when both are Impossible); if only the
second is Impossible the first is returned; otherwise, if neither candidate
has a signature the result is Unavailable without signature, if exactly one
has a signature the stack of the un-signed candidate is taken with has_sig false,
and if both have signatures the result has has_sig true and its stack is the
smaller of the two stacks under the Witness ordering. -/
theorem minimum_spec (sat1 sat2 : Satisfaction) :
    (sat1.stack = .Impossible → Satisfaction.minimum sat1 sat2 = sat2)
    ∧ (sat1.stack ≠ .Impossible → sat2.stack = .Impossible →
        Satisfaction.minimum sat1 sat2 = sat1)
    ∧ (sat1.stack ≠ .Impossible → sat2.stack ≠ .Impossible →
        ((sat1.has_sig = false → sat2.has_sig = false →
          Satisfaction.minimum sat1 sat2 = ⟨.Unavailable, false⟩)
        ∧ (sat1.has_sig = false → sat2.has_sig = true →
          Satisfaction.minimum sat1 sat2 = ⟨sat1.stack, false⟩)
        ∧ (sat1.has_sig = true → sat2.has_sig = false →
          Satisfaction.minimum sat1 sat2 = ⟨sat2.stack, false⟩)
        ∧ (sat1.has_sig = true → sat2.has_sig = true →
          (Satisfaction.minimum sat1 sat2).has_sig = true
          ∧ ((Satisfaction.minimum sat1 sat2).stack = sat1.stack
            ∨ (Satisfaction.minimum sat1 sat2).stack = sat2.stack)
          ∧ Witness.cmp (Satisfaction.minimum sat1 sat2).stack sat1.stack ≠ .gt
          ∧ Witness.cmp (Satisfaction.minimum sat1 sat2).stack sat2.stack ≠ .gt))) := by
  obtain ⟨s1, h1⟩ := sat1
  obtain ⟨s2, h2⟩ := sat2
  refine ⟨?_, ?_, ?_⟩
  · intro h
    simp only at h
    subst h
    cases s2 <;> rfl
  · intro hne h
    simp only at hne h
    subst h
    cases s1 <;> first | rfl | exact absurd rfl hne
  · intro hne1 hne2
    simp only at hne1 hne2
    refine ⟨fun ha hb => ?_, fun ha hb => ?_, fun ha hb => ?_, fun ha hb => ?_⟩ <;>
      simp only at ha hb <;> subst ha <;> subst hb
    · exact minimum_reduce_ff hne1 hne2
    · exact minimum_reduce_ft hne1 hne2
    · exact minimum_reduce_tf hne1 hne2
    · rw [minimum_reduce_tt hne1 hne2]
      exact ⟨rfl, Witness.minW_choice _ _, Witness.minW_le_left _ _, Witness.minW_le_right _ _⟩

/-- C1 witness: the amended characterization applied to two concrete signed
candidates and to an Impossible pair. -/
theorem minimum_spec_witness :
    ((Satisfaction.minimum ⟨.Stack [[1]], true⟩ ⟨.Stack [], true⟩).has_sig = true
      ∧ ((Satisfaction.minimum ⟨.Stack [[1]], true⟩ ⟨.Stack [], true⟩).stack = .Stack [[1]]
        ∨ (Satisfaction.minimum ⟨.Stack [[1]], true⟩ ⟨.Stack [], true⟩).stack = .Stack [])
      ∧ Witness.cmp (Satisfaction.minimum ⟨.Stack [[1]], true⟩ ⟨.Stack [], true⟩).stack
          (.Stack [[1]]) ≠ .gt
      ∧ Witness.cmp (Satisfaction.minimum ⟨.Stack [[1]], true⟩ ⟨.Stack [], true⟩).stack
          (.Stack []) ≠ .gt)
    ∧ Satisfaction.minimum ⟨.Impossible, true⟩ ⟨.Stack [], false⟩ = ⟨.Stack [], false⟩ :=
  ⟨((minimum_spec ⟨.Stack [[1]], true⟩ ⟨.Stack [], true⟩).2.2 (by decide) (by decide)).2.2.2
      rfl rfl,
    (minimum_spec ⟨.Impossible, true⟩ ⟨.Stack [], false⟩).1 rfl⟩

/-- C5: for every fragment After(t) (resp. Older(t)), satisfier and
root_has_sig flag, the satisfaction is the empty stack when the timelock
check passes, Impossible when it fails under a root signature, Unavailable
when it fails without one, and has_sig is false in all cases. -/
theorem satisfy_timelock_spec {Pk : Type} (stfr : SatisfierM Pk) (root_has_sig : Bool)
    (t : Nat) :
    ((satisfy_after stfr root_has_sig t).has_sig = false
      ∧ (stfr.check_after t = true →
          (satisfy_after stfr root_has_sig t).stack = Witness.Stack [])
      ∧ (stfr.check_after t = false → root_has_sig = true →
          (satisfy_after stfr root_has_sig t).stack = .Impossible)
      ∧ (stfr.check_after t = false → root_has_sig = false →
          (satisfy_after stfr root_has_sig t).stack = .Unavailable))
    ∧ ((satisfy_older stfr root_has_sig t).has_sig = false
      ∧ (stfr.check_older t = true →
          (satisfy_older stfr root_has_sig t).stack = Witness.Stack [])
      ∧ (stfr.check_older t = false → root_has_sig = true →
          (satisfy_older stfr root_has_sig t).stack = .Impossible)
      ∧ (stfr.check_older t = false → root_has_sig = false →
          (satisfy_older stfr root_has_sig t).stack = .Unavailable)) := by
  constructor
  · refine ⟨rfl, ?_, ?_, ?_⟩
    · intro hc
      simp [satisfy_after, hc, Witness.empty]
    · intro hc hr
      simp [satisfy_after, hc, hr]
    · intro hc hr
      simp [satisfy_after, hc, hr]
  · refine ⟨rfl, ?_, ?_, ?_⟩
    · intro hc
      simp [satisfy_older, hc, Witness.empty]
    · intro hc hr
      simp [satisfy_older, hc, hr]
    · intro hc hr
      simp [satisfy_older, hc, hr]

/-- C5 witness: the timelock characterization applied to a concrete
satisfier at a met and an unmet timelock. -/
theorem satisfy_timelock_spec_witness :
    (ex_timelock.check_after 50 = true
      ∧ (satisfy_after ex_timelock false 50).stack = Witness.Stack [])
    ∧ (ex_timelock.check_older 200 = false
      ∧ (satisfy_older ex_timelock true 200).stack = Witness.Impossible) :=
  ⟨⟨by decide, (satisfy_timelock_spec ex_timelock false 50).1.2.1 (by decide)⟩,
    ⟨by decide, (satisfy_timelock_spec ex_timelock true 200).2.2.2.1 (by decide) rfl⟩⟩

theorem collect_sigs_ne_none {Pk : Type} (stfr : SatisfierM Pk) (keys : List Pk) :
    collect_sigs stfr keys ≠ none := by
  induction keys with
  | nil => simp [collect_sigs]
  | cons pk rest ih =>
    simp only [collect_sigs, Witness.signature]
    cases h : stfr.lookup_sig pk with
    | none => simpa using ih
    | some sh =>
      obtain ⟨s, ht⟩ := sh
      simp only [Option.map]
      cases hc : collect_sigs stfr rest with
      | none => exact absurd hc ih
      | some v => simp

/-- C9: `Witness.signature` yields a Stack exactly when the lookup returns a
signature and Impossible when it does not, never Unavailable; hence the
Unavailable (`unreachable!`) branch of the Multi signature-collection loop,
modelled as the `none` result of `collect_sigs`, is never taken. -/
theorem signature_never_unavailable {Pk : Type} (stfr : SatisfierM Pk) (pk : Pk)
    (keys : List Pk) :
    Witness.signature stfr pk ≠ .Unavailable
    ∧ (stfr.lookup_sig pk = none → Witness.signature stfr pk = .Impossible)
    ∧ (∀ sig ht, stfr.lookup_sig pk = some (sig, ht) →
        Witness.signature stfr pk = Witness.Stack [sig ++ [ht]])
    ∧ collect_sigs stfr keys ≠ none := by
  refine ⟨?_, fun h => ?_, fun sig ht h => ?_, collect_sigs_ne_none stfr keys⟩
  · unfold Witness.signature
    cases h : stfr.lookup_sig pk with
    | none => simp
    | some sh => obtain ⟨s, t⟩ := sh; simp
  · simp [Witness.signature, h]
  · simp [Witness.signature, h]

/-- C9 witness: the signature characterization applied to a concrete lookup
table with a present and an absent key. -/
theorem signature_never_unavailable_witness :
    ex_timelock.lookup_sig 0 = some ([7], 1)
    ∧ Witness.signature ex_timelock 0 = Witness.Stack [[7, 1]]
    ∧ ex_timelock.lookup_sig 5 = none
    ∧ Witness.signature ex_timelock 5 = Witness.Impossible :=
  ⟨by decide,
    (signature_never_unavailable ex_timelock 0 []).2.2.1 [7] 1 (by decide),
    by decide,
    (signature_never_unavailable ex_timelock 5 []).2.1 (by decide)⟩

theorem iter_next_of_errored {σ Cst : Type} (step : σ → σ × Option (Except IntError Cst))
    (it : IterM σ Cst) (h : it.has_errored = true) :
    IterM.next step it = (it, none) := by
  simp [IterM.next, h]

theorem iter_next_error_sets_flag {σ Cst : Type}
    (step : σ → σ × Option (Except IntError Cst)) (it : IterM σ Cst) (e : IntError)
    (h : (IterM.next step it).2 = some (.error e)) :
    (IterM.next step it).1.has_errored = true := by
  unfold IterM.next at h ⊢
  by_cases hf : it.has_errored
  · simp [hf] at h
  · simp only [hf, if_neg, Bool.false_eq_true, if_false] at h ⊢
    simp [h]

theorem iter_run_preserves_errored {σ Cst : Type}
    (step : σ → σ × Option (Except IntError Cst)) (n : Nat) (it : IterM σ Cst)
    (h : it.has_errored = true) :
    (IterM.run step n it).has_errored = true := by
  induction n generalizing it with
  | zero => exact h
  | succ m ih =>
    rw [IterM.run, iter_next_of_errored step it h]
    exact ih it h

/-- C3: once a call to `next` yields an error, every subsequent call yields
`None` — after an arbitrary number of further calls the iterator still
produces nothing, so at most one error is ever emitted. -/
theorem iter_fused {σ Cst : Type} (step : σ → σ × Option (Except IntError Cst))
    (it : IterM σ Cst) (e : IntError)
    (h : (IterM.next step it).2 = some (.error e)) (n : Nat) :
    (IterM.next step (IterM.run step n (IterM.next step it).1)).2 = none := by
  have hflag := iter_next_error_sets_flag step it e h
  have hrun := iter_run_preserves_errored step n (IterM.next step it).1 hflag
  rw [iter_next_of_errored step _ hrun]

/-- C3 witness: the fuse applied to a concrete always-erroring step. -/
theorem iter_fused_witness :
    (IterM.next step0 ⟨0, false⟩).2 = some (.error .UnexpectedStackEnd)
    ∧ (IterM.next step0 (IterM.run step0 2 (IterM.next step0 ⟨0, false⟩).1)).2 = none :=
  ⟨rfl, iter_fused step0 ⟨0, false⟩ .UnexpectedStackEnd rfl 2⟩

/-- C2: evaluation of the Multi satisfier at the failing input.  With k = 1,
key 0 carrying a 3-byte DER signature and key 1 a 1-byte one, the code keeps
the first collected signature — the more expensive one — and zeroes the
last, because `max_by_key` measures the number of stack elements of each
collected signature (always one) instead of its byte length and returns the
last maximal element on ties; the claim (and the comment in the source,
satisfy.rs:931) requires the k cheapest signatures by byte length to be
kept.  The Impossible case and the dissatisfaction shape are also evaluated
here and agree with the claim. -/
theorem multi_satisfy_keeps_first_not_cheapest :
    satisfy_multi ex_multi 1 [0, 1]
      = some ⟨Witness.Stack [[], [9, 9, 9, 1]], true⟩
    ∧ witness_size [[], [8, 1]] < witness_size [[], [9, 9, 9, 1]]
    ∧ dissatisfy_multi 1 = ⟨Witness.Stack [[], []], false⟩
    ∧ satisfy_multi ex_multi 3 [0, 1] = some ⟨Witness.Impossible, false⟩ := by
  refine ⟨by decide, by decide, by decide, by decide⟩

theorem multi_loop_unfold {Pk : Type} [Inhabited Pk] (verify : Pk → List Nat → Bool)
    (k : Nat) (subs : List Pk) (remaining n_sat : Nat) (stack : List Element)
    (acc : List Pk) :
    multi_loop verify k subs remaining n_sat stack acc
      = if n_sat = k then
          match stack with
          | Element.Dissatisfied :: rest => Except.ok (Element.Satisfied :: rest, acc)
          | _ => Except.error IntError.MissingExtraZeroMultiSig
        else
          match remaining with
          | 0 => Except.error IntError.MultiSigEvaluationError
          | r + 1 =>
            match evaluate_multi verify (subs.getD r default) stack with
            | (stack2, some (Except.ok c)) =>
              multi_loop verify k subs r (n_sat + 1) stack2 (acc ++ [c])
            | (stack2, none) => multi_loop verify k subs r n_sat stack2 acc
            | (_, some (Except.error e)) => Except.error e := by
  cases remaining <;> rfl

theorem multi_eval_dissat_reduce {Pk : Type} [Inhabited Pk] (verify : Pk → List Nat → Bool)
    (k : Nat) (subs : List Pk) (rest : List Element)
    (h : ¬ ((Element.Dissatisfied :: rest).length < k + 1)) :
    multi_eval verify k subs (Element.Dissatisfied :: rest)
      = (if (((Element.Dissatisfied :: rest).take (k + 1)).filter
            (fun e => e = Element.Dissatisfied)).length = k + 1
        then .ok (.Dissatisfied :: (Element.Dissatisfied :: rest).drop (k + 1), [])
        else .error .MissingExtraZeroMultiSig) := by
  simp only [multi_eval]
  rw [if_neg h]

/-- C4: the Multi evaluation of the interpreter: fewer than k+1 stack elements at
entry errors with InsufficientSignaturesMultiSig; when the top element is
Dissatisfied the non-satisfaction form requires all k+1 inspected elements
to be Dissatisfied — otherwise MissingExtraZeroMultiSig — and on success
pushes Dissatisfied on the remaining stack; exhausting the keys with fewer
than k successful matches errors with MultiSigEvaluationError; and once the
k-th success is reached the remaining extra element must be Dissatisfied,
else MissingExtraZeroMultiSig. -/
theorem multi_interp_spec {Pk : Type} [Inhabited Pk] (verify : Pk → List Nat → Bool)
    (k : Nat) (subs : List Pk) (stack : List Element) (remaining n_sat : Nat)
    (acc : List Pk) :
    (stack.length < k + 1 →
      multi_eval verify k subs stack = .error .InsufficientSignaturesMultiSig)
    ∧ (k + 1 ≤ stack.length → stack.head? = some .Dissatisfied →
        ((∀ e ∈ stack.take (k + 1), e = Element.Dissatisfied) →
          multi_eval verify k subs stack
            = .ok (.Dissatisfied :: stack.drop (k + 1), []))
        ∧ (¬ (∀ e ∈ stack.take (k + 1), e = Element.Dissatisfied) →
          multi_eval verify k subs stack = .error .MissingExtraZeroMultiSig))
    ∧ (n_sat ≠ k →
        multi_loop verify k subs 0 n_sat stack acc = .error .MultiSigEvaluationError)
    ∧ (stack.head? = some .Dissatisfied →
        multi_loop verify k subs remaining k stack acc
          = .ok (.Satisfied :: stack.tail, acc))
    ∧ (stack.head? ≠ some .Dissatisfied →
        multi_loop verify k subs remaining k stack acc
          = .error .MissingExtraZeroMultiSig) := by
  refine ⟨fun h => ?_, fun hlen hhead => ?_, fun hn => ?_, fun hhead => ?_, fun hhead => ?_⟩
  · simp [multi_eval, h]
  · obtain ⟨rest, hstack⟩ : ∃ rest, stack = Element.Dissatisfied :: rest := by
      cases stack with
      | nil => simp at hhead
      | cons a rest =>
        cases a <;> simp_all
    subst hstack
    have hnlt : ¬ ((Element.Dissatisfied :: rest).length < k + 1) := Nat.not_lt.mpr hlen
    have hred := multi_eval_dissat_reduce verify k subs rest hnlt
    have htk : ((Element.Dissatisfied :: rest).take (k + 1)).length = k + 1 := by
      simp only [List.length_take, List.length_cons]
      simp only [List.length_cons] at hlen
      omega
    have hiff :
        (((Element.Dissatisfied :: rest).take (k + 1)).filter
            (fun e => e = Element.Dissatisfied)).length = k + 1 ↔
          ∀ e ∈ (Element.Dissatisfied :: rest).take (k + 1), e = Element.Dissatisfied := by
      constructor
      · intro hl
        have hfl : ((List.take (k + 1) (Element.Dissatisfied :: rest)).filter
            (fun e => decide (e = Element.Dissatisfied))).length
            = (List.take (k + 1) (Element.Dissatisfied :: rest)).length := by
          rw [htk]
          exact hl
        have hres := List.filter_length_eq_length.1 hfl
        simpa using hres
      · intro hall
        rw [List.filter_length_eq_length.2 (by simpa using hall)]
        exact htk
    constructor
    · intro hall
      rw [hred, if_pos (hiff.2 hall)]
    · intro hnall
      rw [hred, if_neg (fun hc => hnall (hiff.1 hc))]
  · rw [multi_loop_unfold, if_neg hn]
  · obtain ⟨rest, hstack⟩ : ∃ rest, stack = Element.Dissatisfied :: rest := by
      cases stack with
      | nil => simp at hhead
      | cons a rest =>
        cases a <;> simp_all
    subst hstack
    rw [multi_loop_unfold, if_pos rfl]
    rfl
  · rw [multi_loop_unfold, if_pos rfl]
    cases stack with
    | nil => rfl
    | cons a rest =>
      cases a with
      | Push v => rfl
      | Satisfied => rfl
      | Dissatisfied => simp at hhead

/-- C4 witness: each clause applied at concrete stacks against the
verifier matching the push `[pk]` with the key `pk`. -/
theorem multi_interp_spec_witness :
    multi_eval vf0 1 [0, 1] [Element.Dissatisfied] = .error .InsufficientSignaturesMultiSig
    ∧ multi_eval vf0 1 [0, 1] [Element.Dissatisfied, Element.Dissatisfied]
      = .ok ([Element.Dissatisfied], [])
    ∧ multi_eval vf0 1 [0, 1] [Element.Dissatisfied, Element.Push [5]]
      = .error .MissingExtraZeroMultiSig
    ∧ multi_loop vf0 1 [0, 1] 0 0 [] [] = .error .MultiSigEvaluationError
    ∧ multi_loop vf0 1 [0, 1] 1 1 [Element.Dissatisfied] [1]
      = .ok ([Element.Satisfied], [1])
    ∧ multi_loop vf0 1 [0, 1] 1 1 [Element.Push [9]] [1]
      = .error .MissingExtraZeroMultiSig :=
  ⟨(multi_interp_spec vf0 1 [0, 1] [Element.Dissatisfied] 0 0 []).1 (by decide),
    ((multi_interp_spec vf0 1 [0, 1] [Element.Dissatisfied, Element.Dissatisfied] 0 0 []).2.1
      (by decide) (by decide)).1 (by decide),
    ((multi_interp_spec vf0 1 [0, 1] [Element.Dissatisfied, Element.Push [5]] 0 0 []).2.1
      (by decide) (by decide)).2 (by decide),
    (multi_interp_spec vf0 1 [0, 1] [] 0 0 []).2.2.1 (by decide),
    (multi_interp_spec vf0 1 [0, 1] [Element.Dissatisfied] 1 1 [1]).2.2.2.1 (by decide),
    (multi_interp_spec vf0 1 [0, 1] [Element.Push [9]] 1 1 [1]).2.2.2.2 (by decide)⟩

theorem lex_go_append (ext : ScriptExt) (ret : List Token) (l1 l2 : List Instruction) :
    lex_go ext ret (l1 ++ l2)
      = match lex_go ext ret l1 with
        | .ok ts => lex_go ext ts l2
        | .error e => .error e := by
  induction l1 generalizing ret with
  | nil => simp [lex_go]
  | cons i rest ih =>
    simp only [List.cons_append, lex_go]
    cases lex_step ext ret i with
    | ok r2 => exact ih r2
    | error e => rfl

theorem lex_go_error_after (ext : ScriptExt) (ts : List Token) (l2 : List Instruction)
    (tk : Token) (htk : tk = Token.Equal ∨ tk = Token.CheckSig ∨ tk = Token.CheckMultiSig) :
    lex_go ext (ts ++ [tk]) (.op .VERIFY :: l2) = .error (.NonMinimalVerify tk) := by
  rcases htk with h | h | h <;> subst h <;>
    simp [lex_go, lex_step, List.getLast?_concat]

/-- C7 counterexample: a standalone OP_VERIFY immediately following
OP_EQUALVERIFY is accepted by lex — the last emitted token is then Verify,
not Equal — although the claim requires a NonMinimalVerify failure after a
combined opcode. -/
theorem lex_verify_after_equalverify :
    lex ext0 [.op .EQUALVERIFY, .op .VERIFY]
      = .ok [Token.Equal, Token.Verify, Token.Verify]
    ∧ ∀ e : LexError,
        lex ext0 [.op .EQUALVERIFY, .op .VERIFY] ≠ .error e := by
  constructor
  · rfl
  · intro e h
    rw [show lex ext0 [.op .EQUALVERIFY, .op .VERIFY]
        = .ok [Token.Equal, Token.Verify, Token.Verify] from rfl] at h
    cases h

/-- C7 (amended): lex fails with NonMinimalVerify whenever a standalone
OP_VERIFY immediately follows OP_EQUAL, OP_CHECKSIG or OP_CHECKMULTISIG
(given the preceding instructions lex successfully), and the combined
opcodes OP_EQUALVERIFY, OP_CHECKSIGVERIFY, OP_CHECKMULTISIGVERIFY are
accepted and expand to the token pair (Equal|CheckSig|CheckMultiSig,
Verify); a standalone OP_VERIFY directly after a combined opcode is
accepted, since the last emitted token is then Verify. -/
theorem lex_nonminimal_verify (ext : ScriptExt) (l1 l2 : List Instruction)
    (ts : List Token) (h : lex ext l1 = .ok ts) :
    (lex ext (l1 ++ [.op .EQUAL, .op .VERIFY] ++ l2)
      = .error (.NonMinimalVerify Token.Equal))
    ∧ (lex ext (l1 ++ [.op .CHECKSIG, .op .VERIFY] ++ l2)
      = .error (.NonMinimalVerify Token.CheckSig))
    ∧ (lex ext (l1 ++ [.op .CHECKMULTISIG, .op .VERIFY] ++ l2)
      = .error (.NonMinimalVerify Token.CheckMultiSig))
    ∧ lex ext (l1 ++ [.op .EQUALVERIFY]) = .ok (ts ++ [Token.Equal, Token.Verify])
    ∧ lex ext (l1 ++ [.op .CHECKSIGVERIFY]) = .ok (ts ++ [Token.CheckSig, Token.Verify])
    ∧ lex ext (l1 ++ [.op .CHECKMULTISIGVERIFY])
      = .ok (ts ++ [Token.CheckMultiSig, Token.Verify]) := by
  unfold lex at h
  refine ⟨?_, ?_, ?_, ?_, ?_, ?_⟩
  · show lex_go ext [] ((l1 ++ [.op .EQUAL, .op .VERIFY]) ++ l2) = _
    rw [List.append_assoc, lex_go_append, h]
    exact lex_go_error_after ext ts l2 Token.Equal (Or.inl rfl)
  · show lex_go ext [] ((l1 ++ [.op .CHECKSIG, .op .VERIFY]) ++ l2) = _
    rw [List.append_assoc, lex_go_append, h]
    exact lex_go_error_after ext ts l2 Token.CheckSig (Or.inr (Or.inl rfl))
  · show lex_go ext [] ((l1 ++ [.op .CHECKMULTISIG, .op .VERIFY]) ++ l2) = _
    rw [List.append_assoc, lex_go_append, h]
    exact lex_go_error_after ext ts l2 Token.CheckMultiSig (Or.inr (Or.inr rfl))
  · show lex_go ext [] (l1 ++ [.op .EQUALVERIFY]) = _
    rw [lex_go_append, h]
    rfl
  · show lex_go ext [] (l1 ++ [.op .CHECKSIGVERIFY]) = _
    rw [lex_go_append, h]
    rfl
  · show lex_go ext [] (l1 ++ [.op .CHECKMULTISIGVERIFY]) = _
    rw [lex_go_append, h]
    rfl

/-- C7 witness: the non-minimality rejections and the combined-opcode
expansions applied after a concrete successfully-lexed prefix. -/
theorem lex_nonminimal_verify_witness :
    lex ext0 [.op .DUP] = .ok [Token.Dup]
    ∧ lex ext0 [.op .DUP, .op .EQUAL, .op .VERIFY]
      = .error (.NonMinimalVerify Token.Equal)
    ∧ lex ext0 [.op .DUP, .op .EQUALVERIFY] = .ok [Token.Dup, Token.Equal, Token.Verify] :=
  ⟨rfl,
    (lex_nonminimal_verify ext0 [.op .DUP] [] [Token.Dup] rfl).1,
    (lex_nonminimal_verify ext0 [.op .DUP] [] [Token.Dup] rfl).2.2.2.1⟩

/-- C8: check_after of the PSBT input satisfier returns false on a finalized
input (sequence 0xFFFFFFFF) and otherwise delegates to the After(locktime)
predicate, which holds exactly when n ≤ locktime with both on the same side
of the height/time threshold; check_older returns true when n carries the
sequence-locktime disable flag, false when the transaction version is below
2 or the sequence of the input carries the disable flag, and otherwise delegates
to the Older(sequence) predicate. -/
theorem psbt_timelock_spec (locktime seq n : Nat) (version : Int) :
    (seq = 0xffffffff → psbt_check_after locktime seq n = false)
    ∧ (seq ≠ 0xffffffff → psbt_check_after locktime seq n = after_check locktime n)
    ∧ (after_check locktime n = true ↔
        (n ≤ locktime
          ∧ ((n < HEIGHT_TIME_THRESHOLD ∧ locktime < HEIGHT_TIME_THRESHOLD)
            ∨ (HEIGHT_TIME_THRESHOLD ≤ n ∧ HEIGHT_TIME_THRESHOLD ≤ locktime))))
    ∧ (n &&& SEQUENCE_LOCKTIME_DISABLE_FLAG ≠ 0 → psbt_check_older version seq n = true)
    ∧ (n &&& SEQUENCE_LOCKTIME_DISABLE_FLAG = 0 →
        (version < 2 ∨ seq &&& SEQUENCE_LOCKTIME_DISABLE_FLAG ≠ 0) →
        psbt_check_older version seq n = false)
    ∧ (n &&& SEQUENCE_LOCKTIME_DISABLE_FLAG = 0 → 2 ≤ version →
        seq &&& SEQUENCE_LOCKTIME_DISABLE_FLAG = 0 →
        psbt_check_older version seq n = older_check seq n) := by
  refine ⟨fun h => ?_, fun h => ?_, ?_, fun h => ?_, fun h1 h2 => ?_, fun h1 h2 h3 => ?_⟩
  · simp [psbt_check_after, h]
  · simp [psbt_check_after, h]
  · unfold after_check
    by_cases hc : n < HEIGHT_TIME_THRESHOLD ∧ HEIGHT_TIME_THRESHOLD ≤ locktime
    · rw [if_pos hc]
      simp only [Bool.false_eq_true, false_iff]
      omega
    · rw [if_neg hc]
      simp only [decide_eq_true_eq]
      omega
  · simp [psbt_check_older, h]
  · have hne : (n &&& SEQUENCE_LOCKTIME_DISABLE_FLAG ≠ 0) = False := by simp [h1]
    simp only [psbt_check_older, hne, if_false]
    rw [if_pos h2]
  · have hne : ¬ (version < 2 ∨ seq &&& SEQUENCE_LOCKTIME_DISABLE_FLAG ≠ 0) := by
      push_neg
      exact ⟨by omega, h3⟩
    simp [psbt_check_older, h1, hne]

/-- C8 witness: the timelock characterization applied at concrete sequences,
locktimes and versions. -/
theorem psbt_timelock_spec_witness :
    psbt_check_after 100 0xffffffff 50 = false
    ∧ psbt_check_after 100 5 50 = after_check 100 50
    ∧ psbt_check_older 2 9 0x80000001 = true
    ∧ psbt_check_older 2 0x80000000 7 = false
    ∧ psbt_check_older 2 9 7 = older_check 9 7 :=
  ⟨(psbt_timelock_spec 100 0xffffffff 50 2).1 rfl,
    (psbt_timelock_spec 100 5 50 2).2.1 (by decide),
    (psbt_timelock_spec 0 9 0x80000001 2).2.2.2.1 (by decide),
    (psbt_timelock_spec 0 0x80000000 7 2).2.2.2.2.1 (by decide) (Or.inr (by decide)),
    (psbt_timelock_spec 0 9 7 2).2.2.2.2.2 (by decide) (by decide) (by decide)⟩

end MiniscriptDoge
